import Mathlib

/-!
Verification of the Jellyfin "now showing" email script
(src/sanitized_jellyfin_script.py) against its specification.

The script is embedded shallowly:
* the filesystem (the image cache directory tree) is a map from paths to
  optional byte contents;
* the network is a map from URLs to an HTTP answer: either the request
  raises (network error, timeout) or a response arrives with a status code
  and a body; `raise_for_status` then raises exactly on a 4xx/5xx status,
  so a surfaced non-2xx status outside 400..599 (e.g. 300) passes;
* observable side effects (HTTP requests, cache checks/reads/writes and the
  SMTP dispatch attempt) are recorded in an event trace;
* Python truthiness of the values the script tests (`item.get("Id")`,
  `poster_bytes`, `os.getenv(var)`, the item list) is modelled explicitly:
  None and the empty string / empty bytes / empty list are falsy.
-/

/-- Image bytes; the script never inspects them, only stores and forwards. -/
abbrev Bytes := List Nat

/-- The cache filesystem: a path either holds file contents or no file. -/
abbrev FS := String → Option Bytes

/-- Writing a whole file, as `open(cache_path, "wb"); f.write(...)` does. -/
def FS.write (fs : FS) (p : String) (b : Bytes) : FS :=
  fun q => if q = p then some b else fs q

/-- What one `requests.get` call yields: either the call itself raises
(network error, timeout), or a response arrives with its HTTP status code
and raw body. -/
inductive HttpAnswer where
  | failure
  | response (status : Nat) (body : Bytes)

/-- The network visible to image requests. -/
abbrev Net := String → HttpAnswer

/-- Response.raise_for_status raises exactly for client errors
(400 <= status < 500) and server errors (500 <= status < 600); any other
surfaced status — 2xx but also e.g. 3xx — passes. -/
def raisesForStatus (status : Nat) : Bool :=
  decide (400 ≤ status) && decide (status < 600)

/-- Observable side effects of a run of the script. -/
inductive Event where
  | netRequest (url : String)
  | cacheCheck (path : String)
  | cacheWrite (path : String)
  | cacheRead (path : String)
  | dispatchAttempt
  deriving DecidableEq

/-- Number of network requests recorded in a trace. -/
def netCount (tr : List Event) : Nat :=
  (tr.filter fun e => match e with | .netRequest _ => true | _ => false).length

/-- An item descriptor from the JSON listing: `item.get("Id")`,
`item.get("Name", ...)`, `item.get("Type", ...)`. A missing key is none. -/
structure Item where
  Id : Option String
  Name : Option String
  Type' : Option String
  deriving DecidableEq

/-- Python truthiness of `item.get("Id")` / `os.getenv(var)`:
None and the empty string are falsy. -/
def truthyStr : Option String → Bool
  | none => false
  | some s => s ≠ ""

/-- Python truthiness of the bytes returned by get_cached_image:
None and empty bytes are falsy. -/
def truthyBytes : Option Bytes → Bool
  | none => false
  | some b => b ≠ []

/-- title = item.get("Name", "Unknown Title") -/
def itemTitle (it : Item) : String := it.Name.getD "Unknown Title"

/-- item_type = item.get("Type", "Unknown") -/
def itemTypeStr (it : Item) : String := it.Type'.getD "Unknown"

/-- The listing endpoint's answer as seen by get_latest_items: either the
request raised (network error / timeout), or a response arrived with a
status code and a body that parses to a JSON list of items or is malformed. -/
inductive ListingResponse where
  | failure
  | response (status : Nat) (body : Option (List Item))

/-- get_latest_items: one authenticated GET; `raise_for_status` raises only
on a 4xx/5xx status and `.json()` raises on a malformed body; every
exception is caught and turned into the empty list. A surfaced non-4xx/5xx
response with a well-formed body is returned as is. -/
def get_latest_items (r : ListingResponse) : List Item :=
  match r with
  | .failure => []
  | .response status body =>
    if raisesForStatus status then [] else body.getD []

/-- get_cached_image url cache_path: if no file exists at cache_path, issue
`r = requests.get(url)`, `r.raise_for_status()` (raising only on 4xx/5xx),
and write r.content to cache_path; any exception in that block yields None.
Then read cache_path back and return its bytes.
The result is (returned bytes, filesystem after the call, event trace). -/
def get_cached_image (net : Net) (url : String) (cache_path : String) (fs : FS) :
    Option Bytes × FS × List Event :=
  match fs cache_path with
  | none =>
    match net url with
    | .failure => (none, fs, [.cacheCheck cache_path, .netRequest url])
    | .response st body =>
      if raisesForStatus st then
        (none, fs, [.cacheCheck cache_path, .netRequest url])
      else
        let fs' := fs.write cache_path body
        (fs' cache_path, fs',
          [.cacheCheck cache_path, .netRequest url, .cacheWrite cache_path,
            .cacheRead cache_path])
  | some b => (some b, fs, [.cacheCheck cache_path, .cacheRead cache_path])

/-- True when the pattern list is an initial segment of the other list. -/
def startsWithL : List Char → List Char → Bool
  | [], _ => true
  | _ :: _, [] => false
  | p :: ps, c :: cs => (p = c) && startsWithL ps cs

/-- Python `marker in s` for a non-empty marker. -/
def containsMarker (m : List Char) : List Char → Bool
  | [] => false
  | c :: rest => startsWithL m (c :: rest) || containsMarker m rest

/-- Characters of s before the first occurrence of marker m:
Python `s.split(m)[0]` when m occurs in s. -/
def beforeMarker (m : List Char) : List Char → List Char
  | [] => []
  | c :: rest => if startsWithL m (c :: rest) then [] else c :: beforeMarker m rest

/-- jellyfin_base_url = JELLYFIN_API_URL.split("/Users/")[0]
if "/Users/" in JELLYFIN_API_URL else "http://localhost:8096" -/
def jellyfin_base_url (api : String) : String :=
  if containsMarker "/Users/".data api.data
  then ⟨beforeMarker "/Users/".data api.data⟩
  else "http://localhost:8096"

/-- poster_url = f"{base}/Items/{item_id}/Images/Primary?maxWidth=300" -/
def posterUrl (base id : String) : String :=
  base ++ "/Items/" ++ id ++ "/Images/Primary?maxWidth=300"

/-- logo_url = f"{base}/Items/{item_id}/Images/Logo?maxWidth=300" -/
def logoUrl (base id : String) : String :=
  base ++ "/Items/" ++ id ++ "/Images/Logo?maxWidth=300"

/-- poster_path = os.path.join(POSTER_CACHE_DIR, f"{item_id}.jpg") -/
def posterPath (id : String) : String := "cache/posters/" ++ id ++ ".jpg"

/-- logo_path = os.path.join(LOGO_CACHE_DIR, f"{item_id}.png") -/
def logoPath (id : String) : String := "cache/logos/" ++ id ++ ".png"

/-- An inline image part attached to msg_root, tagged with its Content-ID. -/
structure ImagePart where
  contentId : String
  bytes : Bytes
  deriving DecidableEq

/-- The data of one per-item HTML block appended to html_content: the block
always interpolates the title and type; an img tag referencing a cid appears
exactly for the cids that are present. -/
structure Block where
  title : String
  itemType : String
  posterCid : Option String
  logoCid : Option String
  deriving DecidableEq

/-- The loop body of send_jellyfin_email for one retained item with the
truthy identity id: fetch/cache poster then logo, attach an image part for
each truthy result, and append the item's HTML block.
Result: (filesystem after, events, attached parts, the item's block). -/
def processItem (net : Net) (base : String) (fs : FS) (id : String) (it : Item) :
    FS × List Event × List ImagePart × Block :=
  let pr := get_cached_image net (posterUrl base id) (posterPath id) fs
  let posterParts : List ImagePart :=
    if truthyBytes pr.1 then [⟨"poster_" ++ id, pr.1.getD []⟩] else []
  let posterCid : Option String :=
    if truthyBytes pr.1 then some ("poster_" ++ id) else none
  let lr := get_cached_image net (logoUrl base id) (logoPath id) pr.2.1
  let logoParts : List ImagePart :=
    if truthyBytes lr.1 then [⟨"logo_" ++ id, lr.1.getD []⟩] else []
  let logoCid : Option String :=
    if truthyBytes lr.1 then some ("logo_" ++ id) else none
  (lr.2.1, pr.2.2 ++ lr.2.2, posterParts ++ logoParts,
    ⟨itemTitle it, itemTypeStr it, posterCid, logoCid⟩)

/-- The composer loop `for item in items[:10]` (applied to the already
truncated list): an item whose Id is falsy is skipped by `continue`;
otherwise processItem runs and its block is appended in order. -/
def composeLoop (net : Net) (base : String) : FS → List Item →
    FS × List Event × List ImagePart × List Block
  | fs, [] => (fs, [], [], [])
  | fs, it :: rest =>
    if truthyStr it.Id then
      let r := processItem net base fs (it.Id.getD "") it
      let rec' := composeLoop net base r.1 rest
      (rec'.1, r.2.1 ++ rec'.2.1, r.2.2.1 ++ rec'.2.2.1, r.2.2.2 :: rec'.2.2.2)
    else composeLoop net base fs rest

/-- The five environment variables checked at the top of
send_jellyfin_email. -/
def required_vars : List String :=
  ["JELLYFIN_API_URL", "JELLYFIN_API_TOKEN", "SENDER_EMAIL", "SENDER_PASSWORD",
   "RECIPIENT_EMAILS"]

/-- The validation loop: `if not os.getenv(var): return` for each required
variable, i.e. every required variable must be set and non-empty. -/
def configValid (env : String → Option String) : Bool :=
  required_vars.all fun v => truthyStr (env v)

/-- JELLYFIN_API_URL = os.getenv("JELLYFIN_API_URL", default). -/
def apiUrlOf (env : String → Option String) : String :=
  (env "JELLYFIN_API_URL").getD "http://localhost:8096/Users/{USER_ID}/Items/Latest"

/-- The external world a run interacts with: the listing endpoint's answer,
the image network, and the initial cache filesystem. -/
structure World where
  listing : ListingResponse
  net : Net
  fs0 : FS

/-- What a run of send_jellyfin_email produced: its event trace, the final
cache filesystem, the HTML item blocks in order, the attached inline image
parts in order, and whether an SMTP dispatch was attempted. -/
structure RunResult where
  trace : List Event
  fs : FS
  blocks : List Block
  parts : List ImagePart
  dispatched : Bool

/-- send_jellyfin_email: validate the configuration (aborting with no I/O if
a required variable is falsy); fetch the latest items (one network request);
abort before composing or dispatching if the list is empty; otherwise run
the composer loop over the first 10 items and attempt one SMTP dispatch. -/
def send_jellyfin_email (env : String → Option String) (w : World) : RunResult :=
  if configValid env then
    let items := get_latest_items w.listing
    if items.isEmpty then
      ⟨[.netRequest (apiUrlOf env)], w.fs0, [], [], false⟩
    else
      let base := jellyfin_base_url (apiUrlOf env)
      let r := composeLoop w.net base w.fs0 (items.take 10)
      ⟨.netRequest (apiUrlOf env) :: r.2.1 ++ [.dispatchAttempt], r.1,
        r.2.2.2, r.2.2.1, true⟩
  else ⟨[], w.fs0, [], [], false⟩

/-- The identity the composer retains for an item: its Id when that is
truthy (present and non-empty), nothing otherwise. -/
def itemKey (it : Item) : Option String :=
  if truthyStr it.Id then it.Id else none

/-- A sample environment with every variable set and non-empty. -/
def envSample : String → Option String :=
  fun _ => some "http://h/Users/u/Items/Latest"

/-- An empty cache filesystem. -/
def emptyFS : FS := fun _ => none

/-- A network on which every image request fails. -/
def noNet : Net := fun _ => .failure

/-- A world whose listing request fails at the network level. -/
def wFail : World := ⟨.failure, noNet, emptyFS⟩

/-- A sample item with a truthy identity. -/
def itemA : Item := ⟨some "a1", some "Alpha", some "Movie"⟩

/-- A world whose listing yields one well-formed item. -/
def wOneItem : World := ⟨.response 200 (some [itemA]), noNet, emptyFS⟩

/-- A world whose listing yields one item whose Id is present but empty. -/
def wEmptyId : World :=
  ⟨.response 200 (some [⟨some "", some "Alpha", some "Movie"⟩]), noNet, emptyFS⟩

/-! ## Helper lemmas -/

theorem startsWithL_iff (p : List Char) : ∀ s : List Char,
    startsWithL p s = true ↔ ∃ t, s = p ++ t := by
  induction p with
  | nil =>
    intro s
    simp [startsWithL]
  | cons a as ih =>
    intro s
    cases s with
    | nil =>
      simp [startsWithL]
    | cons c cs =>
      simp only [startsWithL, Bool.and_eq_true, decide_eq_true_eq, ih cs,
        List.cons_append, List.cons.injEq]
      constructor
      · rintro ⟨rfl, t, rfl⟩
        exact ⟨t, rfl, rfl⟩
      · rintro ⟨t, rfl, rfl⟩
        exact ⟨rfl, t, rfl⟩

theorem containsMarker_decomp (m : List Char) : ∀ s : List Char,
    containsMarker m s = true →
    ∃ t, s = beforeMarker m s ++ m ++ t ∧
      containsMarker m (beforeMarker m s) = false := by
  intro s
  induction s with
  | nil => intro h; simp [containsMarker] at h
  | cons c cs ih =>
    intro h
    by_cases hsw : startsWithL m (c :: cs) = true
    · obtain ⟨t, ht⟩ := (startsWithL_iff m (c :: cs)).1 hsw
      have hb0 : beforeMarker m (c :: cs) = [] := by simp [beforeMarker, hsw]
      refine ⟨t, ?_, ?_⟩
      · rw [hb0]; simpa using ht
      · rw [hb0]; rfl
    · have hrest : containsMarker m cs = true := by
        have := h
        simp only [containsMarker, Bool.or_eq_true] at this
        rcases this with h1 | h2
        · exact absurd h1 hsw
        · exact h2
      obtain ⟨t, ht, hbm⟩ := ih hrest
      have hbefore : beforeMarker m (c :: cs) = c :: beforeMarker m cs := by
        simp [beforeMarker, hsw]
      refine ⟨t, ?_, ?_⟩
      · rw [hbefore]
        simpa using congrArg (c :: ·) ht
      · rw [hbefore]
        simp only [containsMarker, Bool.or_eq_false_iff]
        refine ⟨?_, hbm⟩
        by_contra habs
        rw [Bool.not_eq_false] at habs
        obtain ⟨u, hu⟩ := (startsWithL_iff m (c :: beforeMarker m cs)).1 habs
        apply hsw
        rw [startsWithL_iff]
        refine ⟨u ++ m ++ t, ?_⟩
        calc c :: cs = c :: (beforeMarker m cs ++ m ++ t) := by rw [← ht]
      _ = (c :: beforeMarker m cs) ++ m ++ t := by simp
      _ = (m ++ u) ++ m ++ t := by rw [hu]
      _ = m ++ (u ++ m ++ t) := by simp

theorem gci_hit (net : Net) (url path : String) (fs : FS) (b : Bytes)
    (hfs : fs path = some b) :
    get_cached_image net url path fs =
      (some b, fs, [.cacheCheck path, .cacheRead path]) := by
  simp [get_cached_image, hfs]

theorem gci_miss_ok (net : Net) (url path : String) (fs : FS) (st : Nat)
    (body : Bytes) (hfs : fs path = none) (hnet : net url = .response st body)
    (hst : raisesForStatus st = false) :
    get_cached_image net url path fs =
      (some body, fs.write path body,
        [.cacheCheck path, .netRequest url, .cacheWrite path,
          .cacheRead path]) := by
  simp [get_cached_image, hfs, hnet, hst, FS.write]

theorem gci_miss_fail (net : Net) (url path : String) (fs : FS)
    (hfs : fs path = none)
    (hnet : net url = .failure ∨
      ∃ st body, raisesForStatus st = true ∧ net url = .response st body) :
    get_cached_image net url path fs =
      (none, fs, [.cacheCheck path, .netRequest url]) := by
  rcases hnet with h | ⟨st, body, hst, h⟩
  · simp [get_cached_image, hfs, h]
  · simp [get_cached_image, hfs, h, hst]

theorem string_data_inj (a b : String) (h : a.data = b.data) : a = b := by
  cases a; cases b; exact congrArg String.mk h

theorem poster_ne_logo (a b : String) : "poster_" ++ a ≠ "logo_" ++ b := by
  intro h
  have hd := congrArg String.data h
  rw [String.data_append, String.data_append] at hd
  rw [show "poster_".data = 'p' :: "oster_".data from rfl,
      show "logo_".data = 'l' :: "ogo_".data from rfl] at hd
  simp at hd

theorem poster_cid_inj (a b : String) (h : "poster_" ++ a = "poster_" ++ b) :
    a = b := by
  have hd := congrArg String.data h
  rw [String.data_append, String.data_append] at hd
  exact string_data_inj a b (List.append_cancel_left hd)

theorem logo_cid_inj (a b : String) (h : "logo_" ++ a = "logo_" ++ b) :
    a = b := by
  have hd := congrArg String.data h
  rw [String.data_append, String.data_append] at hd
  exact string_data_inj a b (List.append_cancel_left hd)

theorem run_invalid (env : String → Option String) (w : World)
    (hc : configValid env = false) :
    send_jellyfin_email env w = ⟨[], w.fs0, [], [], false⟩ := by
  simp [send_jellyfin_email, hc]

theorem run_no_items (env : String → Option String) (w : World)
    (hc : configValid env = true) (hi : get_latest_items w.listing = []) :
    send_jellyfin_email env w =
      ⟨[.netRequest (apiUrlOf env)], w.fs0, [], [], false⟩ := by
  simp [send_jellyfin_email, hc, hi]

theorem run_items (env : String → Option String) (w : World)
    (hc : configValid env = true)
    (hi : (get_latest_items w.listing).isEmpty = false) :
    send_jellyfin_email env w =
      ⟨.netRequest (apiUrlOf env) ::
          (composeLoop w.net (jellyfin_base_url (apiUrlOf env)) w.fs0
            ((get_latest_items w.listing).take 10)).2.1 ++ [.dispatchAttempt],
        (composeLoop w.net (jellyfin_base_url (apiUrlOf env)) w.fs0
          ((get_latest_items w.listing).take 10)).1,
        (composeLoop w.net (jellyfin_base_url (apiUrlOf env)) w.fs0
          ((get_latest_items w.listing).take 10)).2.2.2,
        (composeLoop w.net (jellyfin_base_url (apiUrlOf env)) w.fs0
          ((get_latest_items w.listing).take 10)).2.2.1, true⟩ := by
  simp [send_jellyfin_email, hc, hi]

theorem composeLoop_blocks (net : Net) (base : String) :
    ∀ (l : List Item) (fs : FS),
    (composeLoop net base fs l).2.2.2.map (fun b => (b.title, b.itemType)) =
      (l.filter fun it => truthyStr it.Id).map
        fun it => (itemTitle it, itemTypeStr it) := by
  intro l
  induction l with
  | nil => intro fs; rfl
  | cons it rest ih =>
    intro fs
    cases hid : truthyStr it.Id with
    | false => simp [composeLoop, hid, ih]
    | true => simp [composeLoop, hid, processItem, ih]

theorem processItem_cids_sublist (net : Net) (base : String) (fs : FS)
    (id : String) (it : Item) :
    List.Sublist ((processItem net base fs id it).2.2.1.map ImagePart.contentId)
      ["poster_" ++ id, "logo_" ++ id] := by
  cases hP : truthyBytes
      (get_cached_image net (posterUrl base id) (posterPath id) fs).1 with
  | false =>
    cases hL : truthyBytes
        (get_cached_image net (logoUrl base id) (logoPath id)
          (get_cached_image net (posterUrl base id) (posterPath id) fs).2.1).1 with
    | false => simp [processItem, hP, hL]
    | true =>
      simp only [processItem, hP, hL, if_false, if_true, Bool.false_eq_true,
        List.nil_append, List.map_cons, List.map_nil]
      exact (List.Sublist.refl _).cons _
  | true =>
    cases hL : truthyBytes
        (get_cached_image net (logoUrl base id) (logoPath id)
          (get_cached_image net (posterUrl base id) (posterPath id) fs).2.1).1 with
    | false =>
      simp only [processItem, hP, hL, Bool.false_eq_true, if_false, if_true,
        List.append_nil, List.map_cons, List.map_nil]
      exact (List.nil_sublist _).cons₂ _
    | true =>
      simp only [processItem, hP, hL, if_true, List.singleton_append,
        List.map_cons, List.map_nil]
      exact List.Sublist.refl _

theorem composeLoop_cids_sublist (net : Net) (base : String) :
    ∀ (l : List Item) (fs : FS),
    List.Sublist ((composeLoop net base fs l).2.2.1.map ImagePart.contentId)
      ((l.filterMap itemKey).flatMap fun id => ["poster_" ++ id, "logo_" ++ id]) := by
  intro l
  induction l with
  | nil => intro fs; simp [composeLoop]
  | cons it rest ih =>
    intro fs
    cases hid : truthyStr it.Id with
    | false =>
      have hkey : itemKey it = none := by simp [itemKey, hid]
      simp only [composeLoop, hid, Bool.false_eq_true, if_false,
        List.filterMap_cons, hkey]
      exact ih fs
    | true =>
      obtain ⟨s, hs⟩ : ∃ s, it.Id = some s := by
        cases hId2 : it.Id with
        | none => rw [hId2] at hid; simp [truthyStr] at hid
        | some s => exact ⟨s, rfl⟩
      have hkey : itemKey it = some s := by
        show (if truthyStr it.Id then it.Id else none) = some s
        rw [if_pos hid]; exact hs
      have hgetD : it.Id.getD "" = s := by simp [hs]
      simp only [composeLoop, hid, if_true, List.filterMap_cons, hkey, hgetD,
        List.flatMap_cons, List.map_append]
      exact (processItem_cids_sublist net base fs s it).append (ih _)

theorem filterMap_itemKey_sublist : ∀ l : List Item,
    List.Sublist (l.filterMap itemKey) (l.filterMap Item.Id) := by
  intro l
  induction l with
  | nil => simp
  | cons it rest ih =>
    cases hId : it.Id with
    | none =>
      have hkey : itemKey it = none := by simp [itemKey, truthyStr, hId]
      simp only [List.filterMap_cons, hkey, hId]
      exact ih
    | some s =>
      by_cases hs : s = ""
      · have hkey : itemKey it = none := by simp [itemKey, truthyStr, hId, hs]
        simp only [List.filterMap_cons, hkey, hId]
        exact ih.cons s
      · have hkey : itemKey it = some s := by simp [itemKey, truthyStr, hId, hs]
        simp only [List.filterMap_cons, hkey, hId]
        exact ih.cons₂ s

theorem cids_flatMap_nodup : ∀ ids : List String, ids.Nodup →
    (ids.flatMap fun id => ["poster_" ++ id, "logo_" ++ id]).Nodup := by
  intro ids
  induction ids with
  | nil => intro _; simp
  | cons id rest ih =>
    intro h
    rw [List.nodup_cons] at h
    rw [List.flatMap_cons]
    refine List.Nodup.append ?_ (ih h.2) ?_
    · refine List.nodup_cons.mpr ⟨?_, List.nodup_singleton _⟩
      simp only [List.mem_singleton]
      exact poster_ne_logo id id
    · intro x hx hx2
      rw [List.mem_flatMap] at hx2
      obtain ⟨id', hid', hxin⟩ := hx2
      simp only [List.mem_cons, List.mem_singleton, List.not_mem_nil,
        or_false] at hx hxin
      rcases hx with rfl | rfl <;> rcases hxin with heq | heq
      · exact h.1 ((poster_cid_inj id id' heq) ▸ hid')
      · exact poster_ne_logo id id' heq
      · exact poster_ne_logo id' id heq.symm
      · exact h.1 ((logo_cid_inj id id' heq) ▸ hid')

/-! ## Claim theorems -/

/-- C3 counterexample: the claim covers every non-2xx status, but
raise_for_status raises only on 4xx/5xx, so a surfaced 300 response — not a
2xx status — with a well-formed one-item body is returned as is, not turned
into the empty list. -/
theorem get_latest_items_non2xx_counterexample :
    ¬ (200 ≤ 300 ∧ 300 ≤ 299) ∧
    get_latest_items (.response 300 (some [itemA])) ≠ [] :=
  ⟨by decide, by decide⟩

/-- C3 (amended): for every failure of the item-listing request that the
code turns into a caught exception — network error or timeout, a 4xx/5xx
status, or a malformed response body — get_latest_items returns the empty
list; being a total function of the response, it raises nothing to its
caller. -/
theorem get_latest_items_4xx5xx_empty (r : ListingResponse)
    (h : r = .failure ∨
      (∃ st b, raisesForStatus st = true ∧ r = .response st b) ∨
      (∃ st, r = .response st none)) :
    get_latest_items r = [] := by
  rcases h with rfl | ⟨st, b, hst, rfl⟩ | ⟨st, rfl⟩
  · rfl
  · simp [get_latest_items, hst]
  · cases hst : raisesForStatus st <;> simp [get_latest_items, hst]

/-- Witness for the amended C3 at a concrete failing response. -/
theorem get_latest_items_4xx5xx_empty_witness :
    get_latest_items (.response 500 (some [itemA])) = [] :=
  get_latest_items_4xx5xx_empty _ (Or.inr (Or.inl ⟨500, _, by decide, rfl⟩))

/-- C2: on a cache miss with a successful download, get_cached_image writes
exactly one file (the derived cache path, holding the downloaded bytes) and
returns those bytes; a second call with the same path then performs zero
network requests, returns the same bytes, and leaves the filesystem
unchanged. -/
theorem get_cached_image_cache_law (net : Net) (url path : String) (fs : FS)
    (st : Nat) (b : Bytes) (hmiss : fs path = none)
    (hnet : net url = .response st b) (hst : raisesForStatus st = false) :
    (get_cached_image net url path fs).1 = some b ∧
    (get_cached_image net url path fs).2.1 path = some b ∧
    (∀ q, q ≠ path → (get_cached_image net url path fs).2.1 q = fs q) ∧
    (get_cached_image net url path (get_cached_image net url path fs).2.1).1
      = some b ∧
    netCount
      (get_cached_image net url path (get_cached_image net url path fs).2.1).2.2
      = 0 ∧
    (get_cached_image net url path (get_cached_image net url path fs).2.1).2.1
      = (get_cached_image net url path fs).2.1 := by
  have h1 : get_cached_image net url path fs =
      (some b, fs.write path b, [.cacheCheck path, .netRequest url,
        .cacheWrite path, .cacheRead path]) :=
    gci_miss_ok net url path fs st b hmiss hnet hst
  have hw : (fs.write path b) path = some b := by simp [FS.write]
  have h2 : get_cached_image net url path (fs.write path b) =
      (some b, fs.write path b, [.cacheCheck path, .cacheRead path]) := by
    simp [get_cached_image, hw]
  rw [h1]
  refine ⟨rfl, hw, ?_, ?_, ?_, ?_⟩
  · intro q hq
    simp [FS.write, hq]
  · simpa using congrArg Prod.fst h2
  · rw [show (get_cached_image net url path (fs.write path b)).2.2 =
      [.cacheCheck path, .cacheRead path] from congrArg (·.2.2) h2]
    rfl
  · simpa using congrArg (·.2.1) h2

/-- Witness for C2 at a concrete miss followed by a successful download. -/
theorem get_cached_image_cache_law_witness :
    ((fun _ => none : FS) "cache/posters/a.jpg" = none) ∧
    ((get_cached_image (fun _ => .response 200 [7]) "u" "cache/posters/a.jpg"
      (fun _ => none)).1 = some [7]) :=
  ⟨rfl, (get_cached_image_cache_law (fun _ => .response 200 [7]) "u"
    "cache/posters/a.jpg" (fun _ => none) 200 [7] rfl rfl (by decide)).1⟩

/-- C5 counterexample: the claim covers every non-2xx image status, but
raise_for_status raises only on 4xx/5xx: on a cache miss, a surfaced 300
response — not a 2xx status — with body [7] is written to the cache file
and its bytes are returned, instead of returning absent with no file
created. -/
theorem get_cached_image_non2xx_counterexample :
    ¬ (200 ≤ 300 ∧ 300 ≤ 299) ∧
    emptyFS "k" = none ∧
    (get_cached_image (fun _ => .response 300 [7]) "u" "k" emptyFS).1
      = some [7] ∧
    (get_cached_image (fun _ => .response 300 [7]) "u" "k" emptyFS).2.1 "k"
      = some [7] :=
  ⟨by decide, rfl, by decide, by decide⟩

/-- C5 (amended): on a cache miss with a download the code turns into a
caught exception — a network error or a 4xx/5xx status — get_cached_image
returns none and leaves the filesystem untouched (no cache file is
created), so a second call with the same path issues a network request
again. -/
theorem get_cached_image_failure_no_file_amended (net : Net)
    (url path : String) (fs : FS) (hmiss : fs path = none)
    (hfail : net url = .failure ∨
      ∃ st body, raisesForStatus st = true ∧ net url = .response st body) :
    (get_cached_image net url path fs).1 = none ∧
    (get_cached_image net url path fs).2.1 = fs ∧
    netCount
      (get_cached_image net url path (get_cached_image net url path fs).2.1).2.2
      = 1 := by
  have h1 : get_cached_image net url path fs =
      (none, fs, [.cacheCheck path, .netRequest url]) :=
    gci_miss_fail net url path fs hmiss hfail
  rw [h1]
  refine ⟨rfl, rfl, ?_⟩
  rw [show (get_cached_image net url path fs).2.2 =
    [.cacheCheck path, .netRequest url] from congrArg (·.2.2) h1]
  rfl

/-- Witness for the amended C5 at a concrete miss with a failing network. -/
theorem get_cached_image_failure_no_file_amended_witness :
    (get_cached_image (fun _ => .failure) "u" "cache/logos/a.png"
      (fun _ => none)).1 = none :=
  (get_cached_image_failure_no_file_amended (fun _ => .failure) "u"
    "cache/logos/a.png" (fun _ => none) rfl (Or.inl rfl)).1

/-- C10: whenever get_cached_image returns bytes, the filesystem it leaves
behind holds a file at the derived cache path whose contents are exactly the
returned bytes (the return value is read back from that file on both the
hit path and the fresh-download path). -/
theorem get_cached_image_reads_back (net : Net) (url path : String) (fs : FS)
    (b : Bytes) (h : (get_cached_image net url path fs).1 = some b) :
    (get_cached_image net url path fs).2.1 path = some b := by
  cases hfs : fs path with
  | none =>
    cases hnet : net url with
    | failure =>
      rw [gci_miss_fail net url path fs hfs (Or.inl hnet)] at h
      simp at h
    | response st body =>
      cases hst : raisesForStatus st with
      | true =>
        rw [gci_miss_fail net url path fs hfs
          (Or.inr ⟨st, body, hst, hnet⟩)] at h
        simp at h
      | false =>
        rw [gci_miss_ok net url path fs st body hfs hnet hst] at h ⊢
        simp at h
        simp [FS.write, h]
  | some c =>
    rw [gci_hit net url path fs c hfs] at h ⊢
    simp at h
    simp [hfs, h]

/-- Witness for C10 at a concrete cache hit. -/
theorem get_cached_image_reads_back_witness :
    (get_cached_image (fun _ => .failure) "u" "k"
      (fun p => if p = "k" then some [3] else none)).2.1 "k" = some [3] :=
  get_cached_image_reads_back (fun _ => .failure) "u" "k"
    (fun p => if p = "k" then some [3] else none) [3] rfl

/-- C8: when the marker "/Users/" occurs in the listing endpoint, the base
URL is the substring preceding its first occurrence (the endpoint decomposes
as base ++ "/Users/" ++ rest with no marker inside the base); when the
marker is absent, the base URL is the fallback "http://localhost:8096". -/
theorem jellyfin_base_url_spec (api : String) :
    (containsMarker "/Users/".data api.data = true →
      ∃ rest, api.data =
          (jellyfin_base_url api).data ++ "/Users/".data ++ rest ∧
        containsMarker "/Users/".data (jellyfin_base_url api).data = false) ∧
    (containsMarker "/Users/".data api.data = false →
      jellyfin_base_url api = "http://localhost:8096") := by
  constructor
  · intro h
    obtain ⟨t, ht, hbm⟩ := containsMarker_decomp "/Users/".data api.data h
    refine ⟨t, ?_, ?_⟩
    · rw [show (jellyfin_base_url api).data =
        beforeMarker "/Users/".data api.data by simp [jellyfin_base_url, h]]
      exact ht
    · rw [show (jellyfin_base_url api).data =
        beforeMarker "/Users/".data api.data by simp [jellyfin_base_url, h]]
      exact hbm
  · intro h
    simp [jellyfin_base_url, h]

/-- Witness for C8 at a concrete endpoint containing the marker. -/
theorem jellyfin_base_url_spec_witness :
    ∃ rest, "http://h/Users/u".data =
        (jellyfin_base_url "http://h/Users/u").data ++ "/Users/".data ++ rest ∧
      containsMarker "/Users/".data
        (jellyfin_base_url "http://h/Users/u").data = false :=
  (jellyfin_base_url_spec "http://h/Users/u").1 (by decide)

/-- C4: if any of the five required configuration settings is missing from
the environment, the run aborts with an empty event trace — no network call,
no cache access, no dispatch attempt — and the cache filesystem untouched. -/
theorem config_missing_aborts (env : String → Option String) (w : World)
    (h : ∃ v ∈ required_vars, env v = none) :
    (send_jellyfin_email env w).trace = [] ∧
    (send_jellyfin_email env w).dispatched = false ∧
    (send_jellyfin_email env w).blocks = [] ∧
    (send_jellyfin_email env w).parts = [] ∧
    (send_jellyfin_email env w).fs = w.fs0 := by
  have hc : configValid env = false := by
    obtain ⟨v, hv, hnone⟩ := h
    cases hcv : configValid env with
    | false => rfl
    | true =>
      rw [configValid, List.all_eq_true] at hcv
      have hvv := hcv v hv
      rw [hnone] at hvv
      simp [truthyStr] at hvv
  rw [run_invalid env w hc]
  exact ⟨rfl, rfl, rfl, rfl, rfl⟩

/-- Witness for C4: an environment with no variable set. -/
theorem config_missing_aborts_witness :
    ("RECIPIENT_EMAILS" ∈ required_vars ∧
      (fun _ => none : String → Option String) "RECIPIENT_EMAILS" = none) ∧
    (send_jellyfin_email (fun _ => none) wFail).trace = [] :=
  ⟨⟨by decide, rfl⟩,
    (config_missing_aborts (fun _ => none) wFail
      ⟨"RECIPIENT_EMAILS", by decide, rfl⟩).1⟩

/-- C6: whenever the fetcher returns zero items, the run records no SMTP
dispatch attempt at all — it terminates before opening a mail session. -/
theorem no_items_no_dispatch (env : String → Option String) (w : World)
    (h : get_latest_items w.listing = []) :
    Event.dispatchAttempt ∉ (send_jellyfin_email env w).trace ∧
    (send_jellyfin_email env w).dispatched = false := by
  cases hc : configValid env with
  | false => rw [run_invalid env w hc]; simp
  | true => rw [run_no_items env w hc h]; simp

/-- Witness for C6 at a concrete failed listing. -/
theorem no_items_no_dispatch_witness :
    get_latest_items wFail.listing = [] ∧
    Event.dispatchAttempt ∉ (send_jellyfin_email envSample wFail).trace :=
  ⟨rfl, (no_items_no_dispatch envSample wFail rfl).1⟩

/-- C1 counterexample: an item whose identity field is present but equal to
the empty string is skipped by the loop (Python truthiness of
item.get("Id")), so the claim as stated — one block for every item that has
an identity field — fails on a one-item listing with Id = "". -/
theorem composer_identity_blocks_counterexample :
    configValid envSample = true ∧
    ¬ ((send_jellyfin_email envSample wEmptyId).blocks.map
        (fun b => (b.title, b.itemType)) =
      (((get_latest_items wEmptyId.listing).take 10).filter
        (fun it => it.Id.isSome)).map
        (fun it => (itemTitle it, itemTypeStr it))) := by
  exact ⟨by decide, by decide⟩

/-- C1 (amended): the composer emits exactly one HTML block, in original
fetch order, for each of the first 10 items whose identity field is present
and non-empty; items beyond the first 10 get no block. -/
theorem composer_blocks_amended (env : String → Option String) (w : World)
    (h : configValid env = true) :
    (send_jellyfin_email env w).blocks.map (fun b => (b.title, b.itemType)) =
      (((get_latest_items w.listing).take 10).filter
        (fun it => truthyStr it.Id)).map
        (fun it => (itemTitle it, itemTypeStr it)) := by
  cases hi : (get_latest_items w.listing).isEmpty with
  | true =>
    rw [run_no_items env w h (List.isEmpty_iff.mp hi)]
    simp [List.isEmpty_iff.mp hi]
  | false =>
    rw [run_items env w h hi]
    exact composeLoop_blocks w.net (jellyfin_base_url (apiUrlOf env)) _ w.fs0

/-- Witness for the amended C1 at a concrete one-item listing. -/
theorem composer_blocks_amended_witness :
    configValid envSample = true ∧
    (send_jellyfin_email envSample wOneItem).blocks.map
        (fun b => (b.title, b.itemType)) =
      (((get_latest_items wOneItem.listing).take 10).filter
        (fun it => truthyStr it.Id)).map
        (fun it => (itemTitle it, itemTypeStr it)) :=
  ⟨by decide, composer_blocks_amended envSample wOneItem (by decide)⟩

/-- C7: when the identity fields of the fetched items are pairwise
distinct, the content identifiers of all inline image parts of the composed
message are pairwise distinct. -/
theorem content_ids_distinct (env : String → Option String) (w : World)
    (h : ((get_latest_items w.listing).filterMap Item.Id).Nodup) :
    ((send_jellyfin_email env w).parts.map ImagePart.contentId).Nodup := by
  cases hc : configValid env with
  | false => rw [run_invalid env w hc]; simp
  | true =>
    cases hi : (get_latest_items w.listing).isEmpty with
    | true => rw [run_no_items env w hc (List.isEmpty_iff.mp hi)]; simp
    | false =>
      rw [run_items env w hc hi]
      have hsub : List.Sublist
          (((get_latest_items w.listing).take 10).filterMap itemKey)
          ((get_latest_items w.listing).filterMap Item.Id) :=
        ((List.take_sublist 10 _).filterMap itemKey).trans
          (filterMap_itemKey_sublist _)
      exact (cids_flatMap_nodup _ (h.sublist hsub)).sublist
        (composeLoop_cids_sublist w.net (jellyfin_base_url (apiUrlOf env))
          ((get_latest_items w.listing).take 10) w.fs0)

/-- Witness for C7 at a concrete one-item listing. -/
theorem content_ids_distinct_witness :
    ((get_latest_items wOneItem.listing).filterMap Item.Id).Nodup ∧
    ((send_jellyfin_email envSample wOneItem).parts.map
      ImagePart.contentId).Nodup :=
  ⟨by decide, content_ids_distinct envSample wOneItem (by decide)⟩

/-- C9: for a retained item (truthy identity) for which neither the poster
nor the logo is obtained (both get_cached_image results are falsy), the
composer still emits that item's HTML block, carrying its title and type
and no image references, and attaches no image part for it. -/
theorem item_without_images_block (net : Net) (base : String) (fs : FS)
    (it : Item) (rest : List Item)
    (hid : truthyStr it.Id = true)
    (hp : truthyBytes (get_cached_image net (posterUrl base (it.Id.getD ""))
      (posterPath (it.Id.getD "")) fs).1 = false)
    (hl : truthyBytes (get_cached_image net (logoUrl base (it.Id.getD ""))
      (logoPath (it.Id.getD ""))
      (get_cached_image net (posterUrl base (it.Id.getD ""))
        (posterPath (it.Id.getD "")) fs).2.1).1 = false) :
    (processItem net base fs (it.Id.getD "") it).2.2.2 =
      ⟨itemTitle it, itemTypeStr it, none, none⟩ ∧
    (processItem net base fs (it.Id.getD "") it).2.2.1 = [] ∧
    (composeLoop net base fs (it :: rest)).2.2.2.head? =
      some ⟨itemTitle it, itemTypeStr it, none, none⟩ := by
  have h1 : (processItem net base fs (it.Id.getD "") it).2.2.2 =
      ⟨itemTitle it, itemTypeStr it, none, none⟩ := by
    simp [processItem, hp, hl]
  have h2 : (processItem net base fs (it.Id.getD "") it).2.2.1 = [] := by
    simp [processItem, hp, hl]
  refine ⟨h1, h2, ?_⟩
  simp only [composeLoop, hid, if_true]
  simp [h1]

/-- Witness for C9 at a concrete item with no reachable images. -/
theorem item_without_images_block_witness :
    truthyStr itemA.Id = true ∧
    (composeLoop noNet "b" emptyFS [itemA]).2.2.2.head? =
      some ⟨itemTitle itemA, itemTypeStr itemA, none, none⟩ :=
  ⟨by decide, (item_without_images_block noNet "b" emptyFS itemA []
    (by decide) (by decide) (by decide)).2.2⟩
